import Mathlib

/-
Verification of the `replier` example (src/cpp/replier.cc) of blink1073/dzmq
against its specification.

The file embeds, in order:
  * the `echo` service callback (replier.cc lines 11-17);
  * the command-line reader `ReadArgs` (replier.cc lines 31-88), including a
    model of the boost::program_options command-line parser restricted to the
    option set declared there (help,h / verbose,v / self-call,s /
    master,m <string> / hidden positional topic, at most one);
  * a spec-modelled discovery/RPC `Node` (the header disc_zmq.hh is not part
    of the sources, so `SrvAdvertise`, `SrvRequest` and `Spin` are modelled
    from the specification text);
  * the `main` routine (replier.cc lines 91-123) as a function from the
    command line and the environment's behaviour to an observable run record.

Modelling notes for the boost parser (third-party library, not repository
code; behaviour follows boost::program_options' documented semantics):
  * an option that expects a value and has no adjacent ("=", or "-mVALUE")
    value takes the next token as its value, except that a next token that
    begins with '-' (and is not the bare token "-") is parsed as an option
    instead, leaving the value missing - this is boost's well-documented
    behaviour that option arguments beginning with a dash (e.g. negative
    numbers) cannot be passed as separate tokens;
  * "--" ends option parsing; the remaining tokens are positional;
  * a second occurrence of any of these options (all non-composing) raises
    multiple_occurrences; a second positional raises
    too_many_positional_options; positional slot 1 is bound to "topic";
  * prefix guessing of long-option names and sticky grouping of short flags
    ("-vs") are not modelled; both only enlarge the set of accepted spellings
    of the same option sequence and play no role in the claims.
All parse-time exceptions are represented by `PErr`; replier.cc catches them
all (`catch (boost::exception &)`) and returns -1 after printing usage.
-/

namespace Dzmq

/-! ## The echo callback (replier.cc lines 11-17)

`echo` asserts `_topic != ""`, prints, copies `_data` into `_rep` and
returns 0.  A failed assertion aborts the process: we embed the callback as
returning `none` exactly when the assertion fails, and `some (rc, reply)`
otherwise. -/

def echo (topic data : String) : Option (Int × String) :=
  if topic = "" then none
  else some (0, data)

/-! ## Command-line parsing model -/

/-- Which value-taking option a token denotes. -/
inductive ValOpt where
  | master
  | topic
deriving DecidableEq, Repr

/-- Classification of a single command-line token (boost cmdline run phase). -/
inductive Tok where
  | flagHelp
  | flagVerbose
  | flagSelfCall
  /-- value option with adjacent value: `--master=V`, `--topic=V`, `-mV` -/
  | valAdj (w : ValOpt) (v : String)
  /-- value option whose value must come from the next token:
      `--master`, `--topic`, `-m` -/
  | valSep (w : ValOpt)
  /-- the end-of-options marker `--` -/
  | ddash
  | positional
  /-- unknown option, or an adjacent value given to a plain flag -/
  | bad
deriving DecidableEq, Repr

/-- Split a long-option body at the first '=' (adjacent-value syntax). -/
def breakEq : List Char → List Char × Option (List Char)
  | [] => ([], none)
  | c :: rest =>
    if c = '=' then ([], some rest)
    else
      let p := breakEq rest
      (c :: p.1, p.2)

/-- Classify a long-option body (the characters after `--`). -/
def longOpt (body : List Char) : Tok :=
  let p := breakEq body
  match String.mk p.1, p.2 with
  | "help", none => .flagHelp
  | "verbose", none => .flagVerbose
  | "self-call", none => .flagSelfCall
  | "master", none => .valSep .master
  | "master", some v => .valAdj .master (String.mk v)
  | "topic", none => .valSep .topic
  | "topic", some v => .valAdj .topic (String.mk v)
  | _, _ => .bad

/-- Classify a short-option body (the characters after `-`). -/
def shortOpt : List Char → Tok
  | ['h'] => .flagHelp
  | ['v'] => .flagVerbose
  | ['s'] => .flagSelfCall
  | ['m'] => .valSep .master
  | 'm' :: rest => .valAdj .master (String.mk rest)
  | _ => .bad

/-- Classify one raw command-line token. -/
def classify (t : String) : Tok :=
  match t.data with
  | '-' :: '-' :: [] => .ddash
  | '-' :: '-' :: body => longOpt body
  | '-' :: [] => .positional
  | '-' :: c :: rest => shortOpt (c :: rest)
  | _ => .positional

/-- Does a token begin with '-' and have at least one more character?
Such a token is never consumed as the separate-token value of a preceding
option (boost parses it as an option instead, making the value missing). -/
def looksLikeOption (t : String) : Bool :=
  match t.data with
  | '-' :: _ :: _ => true
  | _ => false

/-- The exceptions boost::program_options can raise while storing this
option set; replier.cc catches every one of them. -/
inductive PErr where
  | unknownOption
  | missingParam
  | extraParam
  | multipleOccurrences
  | tooManyPositional
deriving DecidableEq, Repr

/-- Parser state: which options have been seen, the recorded values, whether
`--` has been passed, and a value-taking option still waiting for its
separate-token value. -/
structure PState where
  help : Bool
  verbose : Bool
  selfCall : Bool
  master : Option String
  topic : Option String
  ddash : Bool
  pending : Option ValOpt
deriving DecidableEq, Repr

def initState : PState :=
  { help := false, verbose := false, selfCall := false,
    master := none, topic := none, ddash := false, pending := none }

/-- Record the value of a value-taking option (non-composing: a second
occurrence raises multiple_occurrences). -/
def consumeVal (st : PState) (w : ValOpt) (v : String) : Except PErr PState :=
  match w with
  | .master =>
    if st.master.isSome then .error .multipleOccurrences
    else .ok { st with master := some v, pending := none }
  | .topic =>
    if st.topic.isSome then .error .multipleOccurrences
    else .ok { st with topic := some v, pending := none }

/-- Bind a positional token.  The positional table binds at most one token,
to "topic"; a second positional token (or a positional conflicting with an
explicit `--topic`) raises an error. -/
def addPositional (st : PState) (t : String) : Except PErr PState :=
  if st.topic.isSome then .error .tooManyPositional
  else .ok { st with topic := some t }

/-- Process one command-line token. -/
def step (st : PState) (t : String) : Except PErr PState :=
  match st.pending with
  | some w =>
    if looksLikeOption t then .error .missingParam
    else consumeVal st w t
  | none =>
    if st.ddash then addPositional st t
    else
      match classify t with
      | .ddash => .ok { st with ddash := true }
      | .flagHelp =>
        if st.help then .error .multipleOccurrences
        else .ok { st with help := true }
      | .flagVerbose =>
        if st.verbose then .error .multipleOccurrences
        else .ok { st with verbose := true }
      | .flagSelfCall =>
        if st.selfCall then .error .multipleOccurrences
        else .ok { st with selfCall := true }
      | .valAdj w v => consumeVal st w v
      | .valSep w => .ok { st with pending := some w }
      | .positional => addPositional st t
      | .bad => .error .unknownOption

/-- Run the parser over the whole token list (argv without the program
name).  A trailing value-taking option with no value raises
missingParam. -/
def parseTokens (st : PState) : List String → Except PErr PState
  | [] => if st.pending.isSome then .error .missingParam else .ok st
  | t :: rest =>
    match step st t with
    | .error e => .error e
    | .ok st' => parseTokens st' rest

/-- The outputs `ReadArgs` delivers through its reference parameters when it
returns 0. -/
structure ArgsOk where
  verbose : Bool
  selfCall : Bool
  master : String
  topic : String
deriving DecidableEq, Repr

/-- Observable result of `ReadArgs`: its return value, whether the usage
message was printed, and the outputs (present exactly on return 0). -/
structure ReadResult where
  ret : Int
  usagePrinted : Bool
  cfg : Option ArgsOk
deriving DecidableEq, Repr

/-- `ReadArgs` (replier.cc lines 31-88): parse; on any boost exception print
usage and return -1; on `--help` or a missing topic print usage and return
-1; otherwise deliver the outputs and return 0.  `_master` defaults to ""
(default_value) and `_verbose`/`_selfCall` default to false. -/
def ReadArgs (args : List String) : ReadResult :=
  match parseTokens initState args with
  | .error _ => { ret := -1, usagePrinted := true, cfg := none }
  | .ok st =>
    if st.help ∨ st.topic.isNone then
      { ret := -1, usagePrinted := true, cfg := none }
    else
      { ret := 0, usagePrinted := false,
        cfg := some { verbose := st.verbose, selfCall := st.selfCall,
                      master := st.master.getD "", topic := st.topic.getD "" } }

/-- Did the boost parse phase raise an exception on this command line? -/
def parseErrored (args : List String) : Bool :=
  match parseTokens initState args with
  | .error _ => true
  | .ok _ => false

/-- Did the parse succeed with `--help` requested? -/
def helpRequested (args : List String) : Bool :=
  match parseTokens initState args with
  | .error _ => false
  | .ok st => st.help

/-- Did the parse succeed with no topic bound? -/
def topicMissing (args : List String) : Bool :=
  match parseTokens initState args with
  | .error _ => false
  | .ok st => st.topic.isNone

/-- Does a token spell the master option (`--master`, `--master=V`, `-m`,
`-mV`)?  Defined through the tokenizer itself. -/
def mentionsMaster (t : String) : Bool :=
  match classify t with
  | .valAdj .master _ => true
  | .valSep .master => true
  | _ => false

/-! ## The discovery/RPC Node

The header disc_zmq.hh and the Node implementation are not among the
sources; the definitions below are modelled from the specification
(sections 2, 4.1-4.4, 6, 8 of spec.md). -/

/-- A service callback, as in the callback contract of the spec and the
type of `echo`: `(serviceName, requestPayload) -> (responsePayload,
statusCode)`; `none` marks a callback whose assertion failed (process
abort). -/
def Callback : Type := String → String → Option (Int × String)

/-- Modelled from the spec: outcome of a request that leaves the process
over the transport (`Request -> (responsePayload, ok) | NoProvider |
Timeout | TransportError`, spec section 4.2). -/
inductive RemOut where
  | reply (rc : Int) (resp : String)
  | noProvider
  | timeout
  | transportError
deriving DecidableEq, Repr

/-- Outcome of `SrvRequest` as seen by the caller; `callbackAbort` marks a
local callback whose assertion failed (the process aborts inside the
call). -/
inductive ReqOutcome where
  | reply (rc : Int) (resp : String)
  | noProvider
  | timeout
  | transportError
  | callbackAbort
deriving DecidableEq, Repr

def RemOut.lift : RemOut → ReqOutcome
  | .reply rc resp => .reply rc resp
  | .noProvider => .noProvider
  | .timeout => .timeout
  | .transportError => .transportError

/-- Modelled from the spec: the Node state the claims need - the
construction parameters (master endpoint, verbosity) and the local service
table `name -> callback` (spec section 3, LocalService; at most one
callback per name, re-advertising replaces it). -/
structure Node where
  master : String
  verbose : Bool
  localServices : List (String × Callback)

/-- The Node constructor `Node(master, verbose)` (spec section 6,
construction contract). -/
def Node.init (master : String) (verbose : Bool) : Node :=
  { master := master, verbose := verbose, localServices := [] }

/-- Modelled from the spec: `SrvAdvertise` registers a LocalService under
`name`, replacing any previous callback for that name (idempotent
overwrite, spec section 4.1); it returns a status code, 0 on success. -/
def Node.srvAdvertise (n : Node) (name : String) (cb : Callback) : Int × Node :=
  (0, { n with localServices :=
          (name, cb) :: n.localServices.filter (fun p => p.1 != name) })

/-- Modelled from the spec: `SrvRequest` resolves the name against the
local service table first (self-call short-circuit, spec section 4.2): a
locally advertised service is served in-process, without any transport
round trip; otherwise the call goes over the transport, whose outcome
`remote` the environment supplies (the remote side is outside this
process).  The second component records whether the transport path was
taken. -/
def Node.srvRequest (n : Node) (name payload : String) (remote : RemOut) :
    ReqOutcome × Bool :=
  match n.localServices.lookup name with
  | some cb =>
    match cb name payload with
    | some (rc, rep) => (.reply rc rep, false)
    | none => (.callbackAbort, false)
  | none => (remote.lift, true)

/-- External events the event loop sees: ordinary inbound traffic /
timer work, and the external stop signal. -/
inductive Event where
  | message
  | stop
deriving DecidableEq, Repr

/-- Modelled from the spec: `Spin` is the event loop (spec section 4.4):
it polls, dispatches and keeps looping; it returns only when the external
stop signal is raised.  Over a finite prefix of the event stream, `spin`
is `true` when `Spin` has returned within that prefix and `false` when it
is still looping. -/
def spin : List Event → Bool
  | [] => false
  | .stop :: _ => true
  | .message :: rest => spin rest

/-! ## The main routine (replier.cc lines 91-123) -/

/-- Observable trace of one run of `main`, for a given command line and
environment behaviour. -/
structure MainRun where
  /-- ReadArgs returned non-zero: main returns -1 before any Node exists -/
  argError : Bool
  /-- `main`'s return value; `none` while `Spin` is still looping, and
  after an abort -/
  ret : Option Int
  /-- master endpoint passed to the Node constructor, if one was built -/
  nodeMaster : Option String
  /-- verbosity passed to the Node constructor, if one was built -/
  nodeVerbose : Option Bool
  /-- the topic passed to `SrvAdvertise`, if reached -/
  advertisedTopic : Option String
  /-- "srv_dvertise did not work" was printed -/
  advFailPrinted : Bool
  /-- the request payload `data` passed to `SrvRequest`, if the self-call
  was performed -/
  selfCallPayload : Option String
  /-- outcome of the self-call, if performed -/
  selfCallResult : Option ReqOutcome
  /-- whether the self-call went over the transport, if performed -/
  selfCallViaTransport : Option Bool
  /-- the response printed on `rc == 0`, if any -/
  printedResponse : Option String
  /-- the process aborted inside the callback assertion -/
  aborted : Bool
  /-- `node.Spin()` was entered -/
  spun : Bool
deriving DecidableEq, Repr

/-- `main` (replier.cc lines 91-123) over a command line `args` (argv
without the program name) and the environment's behaviour: `advRc` is the
status `SrvAdvertise` returns (its implementation is not in the sources;
the service is registered exactly when it reports success), `remote` the
transport outcome were a request to leave the process, and `events` the
finite event prefix `Spin` observes. -/
def mainModel (args : List String) (advRc : Int) (remote : RemOut)
    (events : List Event) : MainRun :=
  match (ReadArgs args).cfg with
  | none =>
    { argError := true, ret := some (-1), nodeMaster := none,
      nodeVerbose := none, advertisedTopic := none, advFailPrinted := false,
      selfCallPayload := none, selfCallResult := none,
      selfCallViaTransport := none, printedResponse := none,
      aborted := false, spun := false }
  | some cfg =>
    let node0 := Node.init cfg.master cfg.verbose
    let node := if advRc = 0 then (node0.srvAdvertise cfg.topic echo).2 else node0
    let advFail := advRc ≠ 0
    if cfg.selfCall then
      let r := node.srvRequest cfg.topic "" remote
      if r.1 = ReqOutcome.callbackAbort then
        { argError := false, ret := none, nodeMaster := some cfg.master,
          nodeVerbose := some cfg.verbose, advertisedTopic := some cfg.topic,
          advFailPrinted := decide advFail, selfCallPayload := some "",
          selfCallResult := some r.1, selfCallViaTransport := some r.2,
          printedResponse := none, aborted := true, spun := false }
      else
        { argError := false,
          ret := if spin events then some 0 else none,
          nodeMaster := some cfg.master, nodeVerbose := some cfg.verbose,
          advertisedTopic := some cfg.topic, advFailPrinted := decide advFail,
          selfCallPayload := some "", selfCallResult := some r.1,
          selfCallViaTransport := some r.2,
          printedResponse :=
            match r.1 with
            | .reply rc resp => if rc = 0 then some resp else none
            | _ => none,
          aborted := false, spun := true }
    else
      { argError := false,
        ret := if spin events then some 0 else none,
        nodeMaster := some cfg.master, nodeVerbose := some cfg.verbose,
        advertisedTopic := some cfg.topic, advFailPrinted := decide advFail,
        selfCallPayload := none, selfCallResult := none,
        selfCallViaTransport := none, printedResponse := none,
        aborted := false, spun := true }

-- Concrete evaluation checks of the embedded definitions.
example : ReadArgs ["t"] =
    { ret := 0, usagePrinted := false,
      cfg := some { verbose := false, selfCall := false, master := "", topic := "t" } } := by
  decide

example : ReadArgs ["--master", "-v", "t", "u"] =
    { ret := -1, usagePrinted := true, cfg := none } := by decide

example : ReadArgs ["--master", "t", "u"] =
    { ret := 0, usagePrinted := false,
      cfg := some { verbose := false, selfCall := false, master := "t", topic := "u" } } := by
  decide

example : ReadArgs ["-v", "-s", "-m", "tcp://x:1", "top"] =
    { ret := 0, usagePrinted := false,
      cfg := some { verbose := true, selfCall := true, master := "tcp://x:1", topic := "top" } } := by
  decide

example : ReadArgs ["--help", "t"] = { ret := -1, usagePrinted := true, cfg := none } := by decide

example : ReadArgs ["-mfoo", "t"] =
    { ret := 0, usagePrinted := false,
      cfg := some { verbose := false, selfCall := false, master := "foo", topic := "t" } } := by
  decide

example : ReadArgs ["--master=a=b", "t"] =
    { ret := 0, usagePrinted := false,
      cfg := some { verbose := false, selfCall := false, master := "a=b", topic := "t" } } := by
  decide

example : ReadArgs ["--", "-v"] =
    { ret := 0, usagePrinted := false,
      cfg := some { verbose := false, selfCall := false, master := "", topic := "-v" } } := by
  decide

example : ReadArgs ["-v", "-v", "t"] = { ret := -1, usagePrinted := true, cfg := none } := by decide

example : echo "echo" "hello" = some (0, "hello") := by decide

example : (mainModel ["t"] 0 .noProvider [.stop]).ret = some 0 := by decide

example : (mainModel ["-s", "t"] 0 .noProvider [.message]).selfCallResult =
    some (.reply 0 "") := by decide

example : (mainModel ["-s", ""] 0 .noProvider []).aborted = true := by decide

example : (mainModel ["-s", "t"] 1 .noProvider []).selfCallViaTransport =
    some true := by decide

/-! ## Helper lemmas -/

/-- A transport outcome is never a local callback abort. -/
theorem RemOut.lift_ne_abort (r : RemOut) : r.lift ≠ ReqOutcome.callbackAbort := by
  cases r <;> simp [RemOut.lift]

/-- After `SrvAdvertise name echo`, a request for `name` is served
in-process by `echo`: it aborts for the empty name and replies `(0, p)`
otherwise. -/
theorem srvRequest_after_advertise (n : Node) (name p : String) (remote : RemOut) :
    (n.srvAdvertise name echo).2.srvRequest name p remote =
      if name = "" then (ReqOutcome.callbackAbort, false)
      else (ReqOutcome.reply 0 p, false) := by
  simp only [Node.srvAdvertise, Node.srvRequest, List.lookup, beq_self_eq_true]
  by_cases h : name = "" <;> simp [echo, h]

/-- A request on a node with no advertised services goes over the
transport. -/
theorem srvRequest_init (m : String) (vb : Bool) (name p : String) (remote : RemOut) :
    (Node.init m vb).srvRequest name p remote = (remote.lift, true) := by
  simp [Node.init, Node.srvRequest, List.lookup]

/-- `spin` returns exactly when the stop signal occurs in the observed
event prefix. -/
theorem spin_eq_true_iff (evs : List Event) : spin evs = true ↔ Event.stop ∈ evs := by
  induction evs with
  | nil => simp [spin]
  | cons e rest ih => cases e <;> simp [spin, ih]

/-- After the end-of-options marker, a state whose positional slot is
already bound rejects every further token. -/
theorem step_ddash_topic_err {st : PState} (hd : st.ddash = true)
    (ht : st.topic.isSome = true) (hp : st.pending = none) (t : String) :
    step st t = .error PErr.tooManyPositional := by
  simp [step, addPositional, hp, hd, ht]

/-- A step never discards a recorded master value (the master option is
non-composing: a second occurrence raises an error instead). -/
theorem step_master_some {st : PState} {t : String} {s' : PState} {v : String}
    (hm : st.master = some v) (h : step st t = .ok s') : s'.master = some v := by
  unfold step consumeVal addPositional at h
  repeat' split at h
  all_goals
    first
    | simp only [reduceCtorEq] at h
    | (simp only [Except.ok.injEq] at h; subst h; simp_all)

/-- A parse that succeeds never discards a recorded master value. -/
theorem parseTokens_master_some {v : String} :
    ∀ (toks : List String) (st o : PState),
      parseTokens st toks = .ok o → st.master = some v → o.master = some v := by
  intro toks
  induction toks with
  | nil =>
    intro st o h hm
    unfold parseTokens at h
    split at h
    · exact absurd h (by simp)
    · simp only [Except.ok.injEq] at h
      subst h
      exact hm
  | cons t rest ih =>
    intro st o h hm
    unfold parseTokens at h
    cases hs : step st t with
    | error e => simp [hs] at h
    | ok st' =>
      simp only [hs] at h
      exact ih st' o h (step_master_some hm hs)

/-- A step on a token that does not spell the master option, from a state
not waiting for a master value, leaves the master output unchanged and
does not start waiting for a master value. -/
theorem step_no_master {st : PState} {t : String} {s' : PState}
    (ht : mentionsMaster t = false) (hp : st.pending ≠ some ValOpt.master)
    (h : step st t = .ok s') :
    s'.master = st.master ∧ s'.pending ≠ some ValOpt.master := by
  unfold mentionsMaster at ht
  unfold step consumeVal addPositional at h
  cases hpd : st.pending with
  | some w =>
    cases w
    · exact absurd hpd hp
    · simp only [hpd] at h
      repeat' split at h
      all_goals
        first
        | simp only [reduceCtorEq] at h
        | (simp only [Except.ok.injEq] at h; subst h; exact ⟨rfl, by simp [hpd]⟩)
        | simp_all
  | none =>
    simp only [hpd] at h
    cases hc : classify t
    case valAdj w v =>
      simp only [hc] at h ht
      cases w
      · simp at ht
      · repeat' split at h
        all_goals
          first
          | simp only [reduceCtorEq] at h
          | (simp only [Except.ok.injEq] at h; subst h; exact ⟨rfl, by simp [hpd]⟩)
          | simp_all
    case valSep w =>
      simp only [hc] at h ht
      cases w
      · simp at ht
      · repeat' split at h
        all_goals
          first
          | simp only [reduceCtorEq] at h
          | (simp only [Except.ok.injEq] at h; subst h; exact ⟨rfl, by simp [hpd]⟩)
          | simp_all
    case flagHelp =>
      simp only [hc] at h
      repeat' split at h
      all_goals
        first
        | simp only [reduceCtorEq] at h
        | (simp only [Except.ok.injEq] at h; subst h; exact ⟨rfl, by simp [hpd]⟩)
        | simp_all
    case flagVerbose =>
      simp only [hc] at h
      repeat' split at h
      all_goals
        first
        | simp only [reduceCtorEq] at h
        | (simp only [Except.ok.injEq] at h; subst h; exact ⟨rfl, by simp [hpd]⟩)
        | simp_all
    case flagSelfCall =>
      simp only [hc] at h
      repeat' split at h
      all_goals
        first
        | simp only [reduceCtorEq] at h
        | (simp only [Except.ok.injEq] at h; subst h; exact ⟨rfl, by simp [hpd]⟩)
        | simp_all
    case ddash =>
      simp only [hc] at h
      repeat' split at h
      all_goals
        first
        | simp only [reduceCtorEq] at h
        | (simp only [Except.ok.injEq] at h; subst h; exact ⟨rfl, by simp [hpd]⟩)
        | simp_all
    case positional =>
      simp only [hc] at h
      repeat' split at h
      all_goals
        first
        | simp only [reduceCtorEq] at h
        | (simp only [Except.ok.injEq] at h; subst h; exact ⟨rfl, by simp [hpd]⟩)
        | simp_all
    case bad =>
      simp only [hc] at h
      repeat' split at h
      all_goals
        first
        | simp only [reduceCtorEq] at h
        | (simp only [Except.ok.injEq] at h; subst h; exact ⟨rfl, by simp [hpd]⟩)
        | simp_all

/-- A parse over tokens none of which spells the master option leaves the
master output unchanged. -/
theorem parseTokens_no_master :
    ∀ (toks : List String) (st o : PState),
      parseTokens st toks = .ok o →
      (∀ t ∈ toks, mentionsMaster t = false) →
      st.pending ≠ some ValOpt.master → o.master = st.master := by
  intro toks
  induction toks with
  | nil =>
    intro st o h _ _
    unfold parseTokens at h
    split at h
    · exact absurd h (by simp)
    · simp only [Except.ok.injEq] at h
      subst h
      rfl
  | cons t rest ih =>
    intro st o h hall hp
    unfold parseTokens at h
    cases hs : step st t with
    | error e => simp [hs] at h
    | ok st' =>
      simp only [hs] at h
      have hstep := step_no_master (hall t (by simp)) hp hs
      rw [ih st' o h (fun u hu => hall u (by simp [hu])) hstep.2]
      exact hstep.1

/-- After any prefix, the token `"--master"` followed by a value token is
the only way a successful parse can proceed at that point, and it records
exactly that value as the master endpoint. -/
theorem parseTokens_master_sep (e : String) (post : List String) :
    ∀ (pre : List String) (st o : PState),
      parseTokens st (pre ++ "--master" :: e :: post) = .ok o →
      o.master = some e := by
  intro pre
  induction pre with
  | nil =>
    intro st o h
    rw [List.nil_append] at h
    unfold parseTokens at h
    cases hs : step st "--master" with
    | error e' => simp [hs] at h
    | ok st1 =>
      simp only [hs] at h
      unfold step at hs
      cases hpd : st.pending with
      | some w =>
        simp only [hpd] at hs
        rw [if_pos (by decide)] at hs
        exact absurd hs (by simp)
      | none =>
        simp only [hpd] at hs
        split at hs
        · -- after "--": "--master" is a positional token
          rename_i hd
          unfold addPositional at hs
          split at hs
          · exact absurd hs (by simp)
          · simp only [Except.ok.injEq] at hs
            subst hs
            -- the next token e is a second positional: the parse fails
            unfold parseTokens at h
            rw [step_ddash_topic_err (by simpa using hd) (by simp) (by simp [hpd]) e] at h
            simp at h
        · simp only [show classify "--master" = Tok.valSep ValOpt.master from by decide] at hs
          simp only [Except.ok.injEq] at hs
          subst hs
          unfold parseTokens at h
          cases hs2 : step { st with pending := some ValOpt.master } e with
          | error e' => simp [hs2] at h
          | ok st2 =>
            simp only [hs2] at h
            unfold step consumeVal at hs2
            simp only [show ({ st with pending := some ValOpt.master } : PState).pending
                = some ValOpt.master from rfl] at hs2
            split at hs2
            · exact absurd hs2 (by simp)
            · split at hs2
              · exact absurd hs2 (by simp)
              · simp only [Except.ok.injEq] at hs2
                subst hs2
                exact parseTokens_master_some post _ o h (by simp)
  | cons t pre' ih =>
    intro st o h
    rw [List.cons_append] at h
    unfold parseTokens at h
    cases hs : step st t with
    | error e' => simp [hs] at h
    | ok st1 =>
      simp only [hs] at h
      exact ih st1 o h

/-- Inversion of a successful `ReadArgs`: the parse succeeded, help was
not requested, a topic was bound, and the outputs come from the final
parser state. -/
theorem ReadArgs_cfg_some {args : List String} {cfg : ArgsOk}
    (h : (ReadArgs args).cfg = some cfg) :
    (ReadArgs args).ret = 0 ∧
    ∃ st, parseTokens initState args = .ok st ∧ st.help = false ∧
      st.topic.isSome = true ∧
      cfg = { verbose := st.verbose, selfCall := st.selfCall,
              master := st.master.getD "", topic := st.topic.getD "" } := by
  unfold ReadArgs at h ⊢
  cases hp : parseTokens initState args with
  | error e => simp [hp] at h
  | ok st =>
    simp only [hp] at h ⊢
    split at h
    · simp at h
    · rename_i hcond
      simp only [Option.some.injEq] at h
      refine ⟨?_, st, rfl, ?_, ?_, h.symm⟩
      · split
        · rename_i hcc
          exact absurd hcc hcond
        · rfl
      · rcases not_or.mp hcond with ⟨h1, _⟩
        simpa using h1
      · rcases not_or.mp hcond with ⟨_, h2⟩
        cases htp : st.topic with
        | none => rw [htp] at h2; simp at h2
        | some x => simp

/-- Two parses of the same tokens from states that differ only in the
verbose flag (set in the first, clear in the second) stay in lockstep: the
results differ only in the verbose flag.  The first run makes any further
verbose flag a duplicate, so none occurs. -/
theorem step_verbose_par {sh sc : Bool} {sm stp : Option String} {sd : Bool}
    {sp : Option ValOpt} {t : String} {s1 s2 : PState}
    (h1 : step ⟨sh, true, sc, sm, stp, sd, sp⟩ t = .ok s1)
    (h2 : step ⟨sh, false, sc, sm, stp, sd, sp⟩ t = .ok s2) :
    s1 = { s2 with verbose := true } ∧ s2.verbose = false := by
  unfold step consumeVal addPositional at h1 h2
  repeat' split at h1
  all_goals (try simp_all)
  all_goals (subst h1; subst h2; exact ⟨rfl, rfl⟩)

/-- Fold version of `step_verbose_par` over a whole token list. -/
theorem parseTokens_verbose_par :
    ∀ (toks : List String) (st o1 o2 : PState),
      st.verbose = false →
      parseTokens { st with verbose := true } toks = .ok o1 →
      parseTokens st toks = .ok o2 →
      o1 = { o2 with verbose := true } ∧ o2.verbose = false := by
  intro toks
  induction toks with
  | nil =>
    intro st o1 o2 hv h1 h2
    unfold parseTokens at h1 h2
    have hpe : ({ st with verbose := true } : PState).pending = st.pending := rfl
    rw [hpe] at h1
    split at h1
    · exact absurd h1 (by simp)
    · rename_i hpn
      rw [if_neg hpn] at h2
      simp only [Except.ok.injEq] at h1 h2
      subst h1
      subst h2
      exact ⟨rfl, hv⟩
  | cons t rest ih =>
    intro st o1 o2 hv h1 h2
    obtain ⟨sh, sv, sc, sm, stp, sd, sp⟩ := st
    have hv' : sv = false := hv
    subst hv'
    unfold parseTokens at h1 h2
    cases hs2 : step ⟨sh, false, sc, sm, stp, sd, sp⟩ t with
    | error e => simp [hs2] at h2
    | ok s2' =>
      simp only [hs2] at h2
      cases hs1 : step ⟨sh, true, sc, sm, stp, sd, sp⟩ t with
      | error e =>
        rw [show ({ (⟨sh, false, sc, sm, stp, sd, sp⟩ : PState) with verbose := true } :
            PState) = ⟨sh, true, sc, sm, stp, sd, sp⟩ from rfl] at h1
        simp [hs1] at h1
      | ok s1' =>
        rw [show ({ (⟨sh, false, sc, sm, stp, sd, sp⟩ : PState) with verbose := true } :
            PState) = ⟨sh, true, sc, sm, stp, sd, sp⟩ from rfl] at h1
        simp only [hs1] at h1
        obtain ⟨hrel, hv2⟩ := step_verbose_par hs1 hs2
        subst hrel
        exact ih s2' o1 o2 hv2 h1 h2

/-- Two parses of the same tokens from states that differ only in the
positional/topic slot (bound in the first, empty in the second) either
stay in lockstep or the first fails; the second run never binds the
slot. -/
theorem step_topic_par {sh sv sc : Bool} {sm : Option String} {sd : Bool}
    {sp : Option ValOpt} {x : String} {t : String} {s1 s2 : PState}
    (h1 : step ⟨sh, sv, sc, sm, some x, sd, sp⟩ t = .ok s1)
    (h2 : step ⟨sh, sv, sc, sm, none, sd, sp⟩ t = .ok s2) :
    s1 = { s2 with topic := some x } ∧ s2.topic = none := by
  unfold step consumeVal addPositional at h1 h2
  repeat' split at h1
  all_goals (try simp_all)
  all_goals (subst h1; subst h2; exact ⟨rfl, rfl⟩)

/-- Fold version of `step_topic_par` over a whole token list. -/
theorem parseTokens_topic_par :
    ∀ (toks : List String) (st : PState) (x : String) (o1 o2 : PState),
      st.topic = none →
      parseTokens { st with topic := some x } toks = .ok o1 →
      parseTokens st toks = .ok o2 →
      o1 = { o2 with topic := some x } ∧ o2.topic = none := by
  intro toks
  induction toks with
  | nil =>
    intro st x o1 o2 ht h1 h2
    unfold parseTokens at h1 h2
    have hpe : ({ st with topic := some x } : PState).pending = st.pending := rfl
    rw [hpe] at h1
    split at h1
    · exact absurd h1 (by simp)
    · rename_i hpn
      rw [if_neg hpn] at h2
      simp only [Except.ok.injEq] at h1 h2
      subst h1
      subst h2
      exact ⟨rfl, ht⟩
  | cons t rest ih =>
    intro st x o1 o2 ht h1 h2
    obtain ⟨sh, sv, sc, sm, stp, sd, sp⟩ := st
    have ht' : stp = none := ht
    subst ht'
    unfold parseTokens at h1 h2
    cases hs2 : step ⟨sh, sv, sc, sm, none, sd, sp⟩ t with
    | error e => simp [hs2] at h2
    | ok s2' =>
      simp only [hs2] at h2
      cases hs1 : step ⟨sh, sv, sc, sm, some x, sd, sp⟩ t with
      | error e =>
        rw [show ({ (⟨sh, sv, sc, sm, none, sd, sp⟩ : PState) with topic := some x } :
            PState) = ⟨sh, sv, sc, sm, some x, sd, sp⟩ from rfl] at h1
        simp [hs1] at h1
      | ok s1' =>
        rw [show ({ (⟨sh, sv, sc, sm, none, sd, sp⟩ : PState) with topic := some x } :
            PState) = ⟨sh, sv, sc, sm, some x, sd, sp⟩ from rfl] at h1
        simp only [hs1] at h1
        obtain ⟨hrel, ht2⟩ := step_topic_par hs1 hs2
        subst hrel
        exact ih s2' x o1 o2 ht2 h1 h2

/-- Inserting one verbose-flag token anywhere into a command line: if both
the original and the extended line parse successfully, the results differ
only in the verbose flag - unless the flag was taken as the (sole)
positional token, in which case the original line binds no topic. -/
theorem parseTokens_insert_flag {f : String} (hf : classify f = Tok.flagVerbose)
    (hlo : looksLikeOption f = true) (post : List String) :
    ∀ (pre : List String) (st o1 o2 : PState),
      parseTokens st (pre ++ f :: post) = .ok o1 →
      parseTokens st (pre ++ post) = .ok o2 →
      (o1 = { o2 with verbose := true } ∧ o2.verbose = false) ∨ o2.topic = none := by
  intro pre
  induction pre with
  | nil =>
    intro st o1 o2 h1 h2
    rw [List.nil_append] at h1 h2
    unfold parseTokens at h1
    cases hs : step st f with
    | error e => simp [hs] at h1
    | ok st1 =>
      simp only [hs] at h1
      unfold step at hs
      cases hpd : st.pending with
      | some w =>
        simp only [hpd] at hs
        rw [if_pos hlo] at hs
        exact absurd hs (by simp)
      | none =>
        simp only [hpd] at hs
        split at hs
        · -- after "--" the flag token is an ordinary positional token
          unfold addPositional at hs
          split at hs
          · exact absurd hs (by simp)
          · rename_i hnt
            simp only [Except.ok.injEq] at hs
            subst hs
            right
            have htn : st.topic = none := by
              cases htq : st.topic
              · rfl
              · rw [htq] at hnt; simp at hnt
            exact (parseTokens_topic_par post st f o1 o2 htn h1 h2).2
        · simp only [hf] at hs
          split at hs
          · exact absurd hs (by simp)
          · rename_i hnv
            have hsv : st.verbose = false := by
              cases hq : st.verbose
              · rfl
              · rw [hq] at hnv; simp at hnv
            simp only [Except.ok.injEq] at hs
            subst hs
            rw [← hpd] at h1
            left
            exact parseTokens_verbose_par post st o1 o2 hsv h1 h2
  | cons t pre' ih =>
    intro st o1 o2 h1 h2
    rw [List.cons_append] at h1 h2
    unfold parseTokens at h1 h2
    cases hs : step st t with
    | error e => simp [hs] at h1
    | ok st' =>
      simp only [hs] at h1 h2
      exact ih st' o1 o2 h1 h2

/-! ## Claims -/

/-- C1: the echo callback satisfies the callback contract: for every topic
not equal to "" and every data string, echo sets the reply equal to the
data and returns status 0. -/
theorem C1_echo_contract (topic data : String) (h : topic ≠ "") :
    echo topic data = some (0, data) := by
  simp [echo, h]

theorem C1_echo_contract_witness :
    echo "echo" "hello" = some (0, "hello") :=
  C1_echo_contract "echo" "hello" (by decide)

/-- C2: self-call: a process that advertises `name` and requests `name`
gets the registered callback's result, served in-process with no transport
round trip; in particular main's self-call (advertise `echo`, then request
with the data it set) yields SrvRequest status 0 and echo's reply. -/
theorem C2_self_call :
    (∀ (n : Node) (name p : String) (remote : RemOut), name ≠ "" →
      (n.srvAdvertise name echo).2.srvRequest name p remote =
        (ReqOutcome.reply 0 p, false)) ∧
    (∀ args advRc remote evs cfg, (ReadArgs args).cfg = some cfg →
      cfg.selfCall = true → cfg.topic ≠ "" → advRc = 0 →
      (mainModel args advRc remote evs).selfCallResult =
          some (ReqOutcome.reply 0 "") ∧
      (mainModel args advRc remote evs).selfCallViaTransport = some false) := by
  constructor
  · intro n name p remote h
    rw [srvRequest_after_advertise]
    simp [h]
  · intro args advRc remote evs cfg hcfg hsc htopic hadv
    subst hadv
    simp only [mainModel, hcfg, hsc, if_true, reduceIte]
    rw [srvRequest_after_advertise]
    simp [htopic]

theorem C2_self_call_witness :
    ((Node.init "" false).srvAdvertise "echo" echo).2.srvRequest "echo" "hello"
        RemOut.noProvider = (ReqOutcome.reply 0 "hello", false) :=
  C2_self_call.1 (Node.init "" false) "echo" "hello" RemOut.noProvider (by decide)

/-- C3 counterexample: the command line -s "" is accepted by ReadArgs
(the empty string binds the positional topic, so the return value is 0),
yet main never reaches node.Spin(): the self-call invokes the echo
callback with the empty topic, whose assertion fails and aborts the
process before Spin - even with a stop event available.  So "every
accepted command line proceeds to advertise and Spin" is false as
stated. -/
theorem C3_counterexample :
    (ReadArgs ["-s", ""]).ret = 0 ∧
    (mainModel ["-s", ""] 0 RemOut.noProvider [Event.stop]).advertisedTopic =
      some "" ∧
    (mainModel ["-s", ""] 0 RemOut.noProvider [Event.stop]).aborted = true ∧
    (mainModel ["-s", ""] 0 RemOut.noProvider [Event.stop]).spun = false := by
  decide

/-- C3 (amended): a command line with a missing topic, with --help, or on
which option parsing raises, makes ReadArgs print usage and return -1 and
main exit with -1 without constructing a Node.  Every accepted command
line (return 0) makes main proceed to advertise; it then enters Spin if
and only if the run does not abort, and the run aborts exactly when
--self-call is set with the empty-string topic and advertise succeeded
(echo's assertion fails before Spin is reached). -/
theorem C3_arg_handling (args : List String) (advRc : Int) (remote : RemOut)
    (evs : List Event) :
    ((parseErrored args = true ∨ helpRequested args = true ∨
        topicMissing args = true) →
      ReadArgs args = { ret := -1, usagePrinted := true, cfg := none } ∧
      (mainModel args advRc remote evs).argError = true ∧
      (mainModel args advRc remote evs).nodeMaster = none ∧
      (mainModel args advRc remote evs).ret = some (-1)) ∧
    (∀ cfg, (ReadArgs args).cfg = some cfg →
      (ReadArgs args).ret = 0 ∧ (ReadArgs args).usagePrinted = false ∧
      (mainModel args advRc remote evs).argError = false ∧
      (mainModel args advRc remote evs).advertisedTopic = some cfg.topic ∧
      ((mainModel args advRc remote evs).aborted = true ↔
        (cfg.selfCall = true ∧ cfg.topic = "" ∧ advRc = 0)) ∧
      (mainModel args advRc remote evs).spun =
        !(mainModel args advRc remote evs).aborted) := by
  constructor
  · intro h
    have hra : ReadArgs args = { ret := -1, usagePrinted := true, cfg := none } := by
      unfold parseErrored helpRequested topicMissing at h
      unfold ReadArgs
      cases hp : parseTokens initState args with
      | error e => rfl
      | ok st =>
        simp only [hp] at h ⊢
        have hcond : st.help = true ∨ st.topic.isNone = true := by
          rcases h with h | h | h
          · simp at h
          · exact Or.inl h
          · exact Or.inr h
        rcases hcond with h1 | h1 <;> simp [h1]
    refine ⟨hra, ?_, ?_, ?_⟩ <;> simp [mainModel, hra]
  · intro cfg hcfg
    have hr0 : (ReadArgs args).ret = 0 ∧ (ReadArgs args).usagePrinted = false := by
      unfold ReadArgs at hcfg ⊢
      cases hp : parseTokens initState args with
      | error e => simp [hp] at hcfg
      | ok st =>
        simp only [hp] at hcfg ⊢
        split at hcfg
        · simp at hcfg
        · simp_all
    refine ⟨hr0.1, hr0.2, ?_, ?_, ?_, ?_⟩
    · simp only [mainModel, hcfg]
      repeat' split
      all_goals rfl
    · simp only [mainModel, hcfg]
      repeat' split
      all_goals rfl
    · by_cases hadv : advRc = 0
      · subst hadv
        cases hsc : cfg.selfCall with
        | false =>
          simp only [mainModel, hcfg, hsc, Bool.false_eq_true, if_false]
          simp [hsc]
        | true =>
          simp only [mainModel, hcfg, hsc, if_true]
          rw [srvRequest_after_advertise]
          by_cases ht : cfg.topic = ""
          · simp [ht, hsc]
          · simp [ht, hsc]
      · cases hsc : cfg.selfCall with
        | false =>
          simp only [mainModel, hcfg, if_neg hadv, hsc, Bool.false_eq_true, if_false]
          simp [hadv]
        | true =>
          simp only [mainModel, hcfg, if_neg hadv, hsc, if_true, srvRequest_init]
          rw [if_neg (by simpa using RemOut.lift_ne_abort remote)]
          simp [hadv]
    · simp only [mainModel, hcfg]
      repeat' split
      all_goals rfl

theorem C3_arg_handling_witness :
    ReadArgs ["--help"] = { ret := -1, usagePrinted := true, cfg := none } ∧
    (mainModel ["t"] 0 RemOut.noProvider []).advertisedTopic = some "t" ∧
    (mainModel ["t"] 0 RemOut.noProvider []).spun =
      !(mainModel ["t"] 0 RemOut.noProvider []).aborted :=
  ⟨((C3_arg_handling ["--help"] 0 RemOut.noProvider []).1 (by decide)).1,
   (((C3_arg_handling ["t"] 0 RemOut.noProvider []).2
      { verbose := false, selfCall := false, master := "", topic := "t" }
      (by decide)).2.2.2.1),
   (((C3_arg_handling ["t"] 0 RemOut.noProvider []).2
      { verbose := false, selfCall := false, master := "", topic := "t" }
      (by decide)).2.2.2.2.2)⟩

/-- C5: Spin returns exactly when the external stop signal is raised, and
main's final `return 0` is reached only after such a stop signal. -/
theorem C5_spin_stop :
    (∀ evs, spin evs = true ↔ Event.stop ∈ evs) ∧
    (∀ args advRc remote evs,
      (mainModel args advRc remote evs).ret = some 0 → Event.stop ∈ evs) := by
  refine ⟨spin_eq_true_iff, ?_⟩
  intro args advRc remote evs h
  rw [← spin_eq_true_iff]
  by_contra hs
  simp only [Bool.not_eq_true] at hs
  simp only [mainModel, hs] at h
  cases hcfg : (ReadArgs args).cfg with
  | none => simp [hcfg] at h
  | some cfg =>
    simp only [hcfg] at h
    repeat' split at h
    all_goals simp_all

theorem C5_spin_stop_witness : Event.stop ∈ [Event.stop] :=
  C5_spin_stop.2 ["t"] 0 RemOut.noProvider [Event.stop] (by decide)

/-- C6: under the precondition that service names are non-empty, the
assertion at the start of echo holds: echo never aborts, and no request
served through the advertised service path ends in a callback abort. -/
theorem C6_assert_valid :
    (∀ name data : String, name ≠ "" → (echo name data).isSome = true) ∧
    (∀ (n : Node) (name payload : String) (remote : RemOut), name ≠ "" →
      ((n.srvAdvertise name echo).2.srvRequest name payload remote).1 ≠
        ReqOutcome.callbackAbort) := by
  constructor
  · intro name data h
    simp [echo, h]
  · intro n name payload remote h
    rw [srvRequest_after_advertise]
    simp [h]

theorem C6_assert_valid_witness : (echo "t" "").isSome = true :=
  C6_assert_valid.1 "t" "" (by decide)

/-- C8: ReadArgs is total and converts every parse-time boost exception
into the value -1 after printing usage; its return value is always the
plain integer 0 or -1, 0 exactly when the outputs are delivered. -/
theorem C8_no_exception (args : List String) :
    (parseErrored args = true →
      ReadArgs args = { ret := -1, usagePrinted := true, cfg := none }) ∧
    ((ReadArgs args).ret = 0 ∨ (ReadArgs args).ret = -1) ∧
    ((ReadArgs args).ret = 0 ↔ (ReadArgs args).cfg.isSome) := by
  unfold parseErrored ReadArgs
  cases h : parseTokens initState args with
  | error e => simp
  | ok st =>
    simp only [Bool.false_eq_true, false_implies, true_and]
    split <;> simp

theorem C8_no_exception_witness :
    ReadArgs ["--bogus"] = { ret := -1, usagePrinted := true, cfg := none } :=
  (C8_no_exception ["--bogus"]).1 (by decide)

/-- C9: a failed advertise is non-fatal: when SrvAdvertise reports a
non-zero status on an accepted command line, main prints the diagnostic,
does not exit, still performs the self-call when requested, and still
enters Spin. -/
theorem C9_advertise_failure_nonfatal (args : List String) (cfg : ArgsOk)
    (advRc : Int) (remote : RemOut) (evs : List Event)
    (hcfg : (ReadArgs args).cfg = some cfg) (hadv : advRc ≠ 0) :
    (mainModel args advRc remote evs).argError = false ∧
    (mainModel args advRc remote evs).advFailPrinted = true ∧
    (mainModel args advRc remote evs).ret ≠ some (-1) ∧
    (cfg.selfCall = true →
      (mainModel args advRc remote evs).selfCallPayload = some "" ∧
      (mainModel args advRc remote evs).selfCallResult = some remote.lift) ∧
    (mainModel args advRc remote evs).spun = true := by
  cases hsc : cfg.selfCall with
  | false =>
    simp only [mainModel, hcfg, if_neg hadv, hsc, Bool.false_eq_true, if_false]
    refine ⟨by simp, by simp [hadv], ?_, by simp, by simp⟩
    split <;> simp
  | true =>
    simp only [mainModel, hcfg, if_neg hadv, hsc, if_true, srvRequest_init]
    rw [if_neg (by simpa using RemOut.lift_ne_abort remote)]
    refine ⟨rfl, by simp [hadv], ?_, fun _ => ⟨rfl, rfl⟩, rfl⟩
    split <;> simp

theorem C9_advertise_failure_nonfatal_witness :
    (mainModel ["-s", "t"] 1 RemOut.noProvider []).argError = false ∧
    (mainModel ["-s", "t"] 1 RemOut.noProvider []).advFailPrinted = true ∧
    (mainModel ["-s", "t"] 1 RemOut.noProvider []).ret ≠ some (-1) ∧
    (({ verbose := false, selfCall := true, master := "", topic := "t" } :
        ArgsOk).selfCall = true →
      (mainModel ["-s", "t"] 1 RemOut.noProvider []).selfCallPayload = some "" ∧
      (mainModel ["-s", "t"] 1 RemOut.noProvider []).selfCallResult =
        some RemOut.noProvider.lift) ∧
    (mainModel ["-s", "t"] 1 RemOut.noProvider []).spun = true :=
  C9_advertise_failure_nonfatal ["-s", "t"]
    { verbose := false, selfCall := true, master := "", topic := "t" }
    1 RemOut.noProvider [] (by decide) (by decide)

/-- C10: in self-call mode main sends the empty payload, and when the
request is served by the registered echo callback the response printed on
success is the empty string. -/
theorem C10_selfcall_empty_payload (args : List String) (advRc : Int)
    (remote : RemOut) (evs : List Event) (cfg : ArgsOk)
    (hcfg : (ReadArgs args).cfg = some cfg) (hsc : cfg.selfCall = true) :
    (mainModel args advRc remote evs).selfCallPayload = some "" ∧
    (advRc = 0 → ∀ s, (mainModel args advRc remote evs).printedResponse = some s →
      s = "") := by
  constructor
  · simp only [mainModel, hcfg, hsc, if_true]
    repeat' split
    all_goals rfl
  · intro hadv s hs
    subst hadv
    simp only [mainModel, hcfg, hsc, if_true] at hs
    rw [srvRequest_after_advertise] at hs
    by_cases ht : cfg.topic = ""
    · simp [ht] at hs
    · simp [ht] at hs
      exact hs.symm

theorem C10_selfcall_empty_payload_witness :
    (mainModel ["-s", "t"] 0 RemOut.noProvider []).selfCallPayload = some "" :=
  (C10_selfcall_empty_payload ["-s", "t"] 0 RemOut.noProvider []
    { verbose := false, selfCall := true, master := "", topic := "t" }
    (by decide) (by decide)).1

/-- C7: an accepted command line that contains no --master or -m token
yields the default master output "" (selecting link-local broadcast
discovery); a command line accepted with `--master <endpoint>` yields
exactly that endpoint; and the master output is the endpoint passed to the
Node constructor. -/
theorem C7_master_endpoint :
    (∀ (args : List String) (cfg : ArgsOk), (ReadArgs args).cfg = some cfg →
      (∀ t ∈ args, mentionsMaster t = false) → cfg.master = "") ∧
    (∀ (pre post : List String) (e : String) (cfg : ArgsOk),
      (ReadArgs (pre ++ "--master" :: e :: post)).cfg = some cfg →
      cfg.master = e) ∧
    (∀ (args : List String) (cfg : ArgsOk) (advRc : Int) (remote : RemOut)
      (evs : List Event), (ReadArgs args).cfg = some cfg →
      (mainModel args advRc remote evs).nodeMaster = some cfg.master) := by
  refine ⟨?_, ?_, ?_⟩
  · intro args cfg hcfg hnm
    obtain ⟨-, st, hp, -, -, hc⟩ := ReadArgs_cfg_some hcfg
    have hm := parseTokens_no_master args initState st hp hnm (by simp [initState])
    rw [hc]
    simp [hm, initState]
  · intro pre post e cfg hcfg
    obtain ⟨-, st, hp, -, -, hc⟩ := ReadArgs_cfg_some hcfg
    have hm := parseTokens_master_sep e post pre initState st hp
    rw [hc]
    simp [hm]
  · intro args cfg advRc remote evs hcfg
    simp only [mainModel, hcfg]
    repeat' split
    all_goals rfl

theorem C7_master_endpoint_witness :
    ({ verbose := false, selfCall := false, master := "", topic := "t" } :
        ArgsOk).master = "" ∧
    ({ verbose := false, selfCall := false, master := "tcp://h:1", topic := "t" } :
        ArgsOk).master = "tcp://h:1" :=
  ⟨C7_master_endpoint.1 ["t"]
      { verbose := false, selfCall := false, master := "", topic := "t" }
      (by decide) (by decide),
   C7_master_endpoint.2.1 [] ["t"] "tcp://h:1"
      { verbose := false, selfCall := false, master := "tcp://h:1", topic := "t" }
      (by decide)⟩

/-- C4 counterexample: the two command lines below are identical except
for the presence of the -v flag, yet ReadArgs returns -1 for one and 0
for the other (the flag token is parsed as an option where the value of
--master was expected): the verbosity flag is not free of behavioural
effect on ReadArgs' other outputs and return code. -/
theorem C4_counterexample :
    (ReadArgs (["--master"] ++ ["-v"] ++ ["t", "u"])).ret ≠
      (ReadArgs (["--master"] ++ ["t", "u"])).ret ∧
    ReadArgs (["--master"] ++ ["-v"] ++ ["t", "u"]) =
      { ret := -1, usagePrinted := true, cfg := none } ∧
    ReadArgs (["--master"] ++ ["t", "u"]) =
      { ret := 0, usagePrinted := false,
        cfg := some { verbose := false, selfCall := false,
                      master := "t", topic := "u" } } := by
  decide

/-- C4 (amended): for every pair of command lines identical except for the
presence of one --verbose or -v token, if ReadArgs accepts both, then the
return codes agree and the _selfCall, _master and _topic outputs agree,
the two runs differing only in the _verbose output; the flag's presence
can, however, decide whether a command line is accepted at all (see the
counterexample). -/
theorem C4_verbose_noninterference (pre post : List String) (f : String)
    (hf : f = "-v" ∨ f = "--verbose") (cfgA cfgB : ArgsOk)
    (hA : (ReadArgs (pre ++ f :: post)).cfg = some cfgA)
    (hB : (ReadArgs (pre ++ post)).cfg = some cfgB) :
    (ReadArgs (pre ++ f :: post)).ret = (ReadArgs (pre ++ post)).ret ∧
    cfgA.selfCall = cfgB.selfCall ∧ cfgA.master = cfgB.master ∧
    cfgA.topic = cfgB.topic ∧ cfgA.verbose = true ∧ cfgB.verbose = false := by
  have hcf : classify f = Tok.flagVerbose := by
    rcases hf with h | h <;> subst h <;> decide
  have hlo : looksLikeOption f = true := by
    rcases hf with h | h <;> subst h <;> decide
  obtain ⟨hretA, stA, hpA, -, -, hcA⟩ := ReadArgs_cfg_some hA
  obtain ⟨hretB, stB, hpB, -, htB, hcB⟩ := ReadArgs_cfg_some hB
  rcases parseTokens_insert_flag hcf hlo post pre initState stA stB hpA hpB with
    ⟨hrel, hv⟩ | htn
  · subst hcA
    subst hcB
    exact ⟨by rw [hretA, hretB], by simp [hrel], by simp [hrel], by simp [hrel],
      by simp [hrel], by simp [hv]⟩
  · rw [htn] at htB
    simp at htB

theorem C4_verbose_noninterference_witness :
    (ReadArgs ([] ++ "-v" :: ["t"])).ret = (ReadArgs ([] ++ ["t"])).ret ∧
    ({ verbose := true, selfCall := false, master := "", topic := "t" } :
        ArgsOk).selfCall =
      ({ verbose := false, selfCall := false, master := "", topic := "t" } :
        ArgsOk).selfCall ∧
    ({ verbose := true, selfCall := false, master := "", topic := "t" } :
        ArgsOk).master =
      ({ verbose := false, selfCall := false, master := "", topic := "t" } :
        ArgsOk).master ∧
    ({ verbose := true, selfCall := false, master := "", topic := "t" } :
        ArgsOk).topic =
      ({ verbose := false, selfCall := false, master := "", topic := "t" } :
        ArgsOk).topic ∧
    ({ verbose := true, selfCall := false, master := "", topic := "t" } :
        ArgsOk).verbose = true ∧
    ({ verbose := false, selfCall := false, master := "", topic := "t" } :
        ArgsOk).verbose = false :=
  C4_verbose_noninterference [] ["t"] "-v" (Or.inl rfl)
    { verbose := true, selfCall := false, master := "", topic := "t" }
    { verbose := false, selfCall := false, master := "", topic := "t" }
    (by decide) (by decide)

end Dzmq
